import Mathlib

/-!
Verification of the csoup growable-array container (`src/internal/vector.h`):
`Vector<T>` and its cursor `VectorIterator<T>`, embedded shallowly.

Modelling conventions:
* The live elements `[stack_, stackTop_)` are a `List T` (`data`).
* `cap` is `stackEnd_ - stack_`; `allocated` is `stack_ != NULL`.
* `reallocCount` counts the calls to `allocator_->realloc` made by `resize`,
  so that "triggers a reallocation" is directly observable.
* `CSOUP_ASSERT(cond)` is a fatal precondition check: an operation whose
  assert fails halts execution, modelled as returning `none`.
-/

namespace CSoup

/-- Model of csoup `internal::VectorIterator<T>` (vector.h lines 212-255):
a snapshot cursor holding a position, the size at creation time, and the
buffer contents at creation time. -/
structure VectorIterator (T : Type) where
  pos_ : Nat
  size_ : Nat
  base_ : List T
deriving DecidableEq

/-- Modelled from the spec: `CSOUP_ASSERT` is defined in a header that is not
part of the sources given (`util/common.h` / `csoup.h` is missing); per the
spec (section 7) it is a fatal precondition check that halts execution when the
condition is false, and per section 9 it is a debug-only assertion call, not a
reliable boolean. We model the halt as `none`; when the condition holds,
execution continues and the assert's own value carries no information
(modelled as `some true`). -/
def csoupAssert (cond : Bool) : Option Bool :=
  if cond then some true else none

/-- Model of csoup `internal::Vector<T>` (vector.h lines 18-210). -/
structure Vector (T : Type) where
  data : List T
  cap : Nat
  allocated : Bool
  initialCapacity_ : Nat
  reallocCount : Nat
deriving DecidableEq

namespace Vector

variable {T : Type}

/-- vector.h line 163: `size_t size() const { return stackTop_ - stack_; }` -/
def size (v : Vector T) : Nat := v.data.length

/-- vector.h line 164: `size_t capacity() const { return (stackEnd_ - stack_); }` -/
def capacity (v : Vector T) : Nat := v.cap

/-- vector.h line 165: `bool empty() const { return size() == 0; }` -/
def empty (v : Vector T) : Bool := v.size == 0

/-- vector.h lines 23-24, member initializers of the constructor: null stack
pointers (nothing allocated, zero capacity) and the stored initial capacity. -/
def mkRaw (vectorCapacity : Nat) : Vector T :=
  ⟨[], 0, false, vectorCapacity, 0⟩

/-- vector.h lines 23-27, the constructor including its two preconditions
`CSOUP_ASSERT(vectorCapacity > 0)` and `CSOUP_ASSERT(allocator_ != NULL)`.
The allocator pointer is abstracted to the boolean `allocatorNull`. -/
def mkChecked (vectorCapacity : Nat) (allocatorNull : Bool) : Option (Vector T) :=
  if 0 < vectorCapacity ∧ allocatorNull = false then some (mkRaw vectorCapacity) else none

/-- vector.h lines 196-203, `resize(count)`: realloc to `count` slots, keeping
the live elements; afterwards the buffer exists and `capacity = count`. -/
def resize (v : Vector T) (count : Nat) : Vector T :=
  { v with cap := count, allocated := true, reallocCount := v.reallocCount + 1 }

/-- vector.h lines 180-194, `expand(count)`: pick `initialCapacity_` if the
stack was never allocated, else grow capacity by half (rounded up); raise to
`size() + count` if that is still larger; then `resize`. -/
def expand (v : Vector T) (count : Nat) : Vector T :=
  let newCapacity := if v.allocated then v.cap + (v.cap + 1) / 2 else v.initialCapacity_
  let newSize := v.size + count
  resize v (if newCapacity < newSize then newSize else newCapacity)

/-- vector.h lines 174-178, `ensureExtraSize(count)`:
`if (stackTop_ + count >= stackEnd_) expand(count + size() - capacity());`
(note the `>=`, and the subtraction of the free space from the argument). -/
def ensureExtraSize (v : Vector T) (count : Nat) : Vector T :=
  if v.size + count ≥ v.cap then expand v (count + v.size - v.cap) else v

/-- vector.h lines 58-62, `push(obj)`: ensure one extra slot, then
placement-construct `obj` at `stackTop_` and advance `stackTop_`. -/
def push (v : Vector T) (obj : T) : Vector T :=
  let v' := ensureExtraSize v 1
  { v' with data := v'.data ++ [obj] }

/-- vector.h lines 69-72, `pop()`: `CSOUP_ASSERT(!empty())`, then destroy the
last element and retreat `stackTop_`. -/
def pop (v : Vector T) : Option (Vector T) :=
  if v.empty then none else some { v with data := v.data.dropLast }

/-- vector.h lines 74-82, `back()`: `CSOUP_ASSERT(!empty())`, then the element
at `stackTop_ - 1` (the pointer is abstracted to the value it points at). -/
def back (v : Vector T) : Option T :=
  if v.empty then none else v.data.getLast?

/-- vector.h lines 84-92, `front()`: `CSOUP_ASSERT(!empty())`, then the element
at `stack_`. -/
def front (v : Vector T) : Option T :=
  if v.empty then none else v.data.head?

/-- vector.h lines 94-102, `at(i)`: `CSOUP_ASSERT(i < size())`, then the
element at `stack_ + i`. (`at` is a Lean keyword, hence the prime.) -/
def at' (v : Vector T) (i : Nat) : Option T :=
  if i < v.size then v.data.get? i else none

/-- vector.h lines 104-106, `reserve(n)`:
`if (n > size()) ensureExtraSize(n - size());` -/
def reserve (v : Vector T) (n : Nat) : Vector T :=
  if n > v.size then ensureExtraSize v (n - v.size) else v

/-- vector.h lines 108-114, `remove(index, del)`: `CSOUP_ASSERT(index < size())`,
destroy the element at `index` (unconditionally — `del` is never read), shift
`[index+1, size)` left by one, retreat `stackTop_`. The second component of
the result records the elements whose destructor the call invokes. -/
def remove (v : Vector T) (index : Nat) (del : Bool) :
    Option (Vector T × List T) :=
  if index < v.size then
    some ({ v with data := v.data.take index ++ v.data.drop (index + 1) },
          (v.data.get? index).toList)
  else none

/-- vector.h lines 116-124, `insert(index, obj)`: clamp `index` to `size()`,
ensure one extra slot, shift `[index, size)` right by one, construct `obj` at
`index`, advance `stackTop_`. -/
def insert (v : Vector T) (index : Nat) (obj : T) : Vector T :=
  let idx := if index > v.size then v.size else index
  let v' := ensureExtraSize v 1
  { v' with data := v'.data.take idx ++ obj :: v'.data.drop idx }

/-- vector.h lines 34-40, `clear()`: destroy every live element, then
`stackTop_ = stack_`; the buffer and capacity are untouched. -/
def clear (v : Vector T) : Vector T :=
  { v with data := [] }

/-- vector.h lines 42-54, `shrinkToFit()`: when empty, free the buffer and
null all three pointers; otherwise `resize(size())`. -/
def shrinkToFit (v : Vector T) : Vector T :=
  if v.empty then { v with data := [], cap := 0, allocated := false }
  else resize v v.size

/-- vector.h lines 150-152, `begin()`: `VectorIterator<T>(size(), 0, stack_)`. -/
def begin (v : Vector T) : VectorIterator T :=
  ⟨0, v.size, v.data⟩

/-- vector.h lines 154-156, `end()`: `VectorIterator<T>(size(), size(), stack_)`
(`end` is a Lean keyword, hence the name `endIter`). -/
def endIter (v : Vector T) : VectorIterator T :=
  ⟨v.size, v.size, v.data⟩

/-- Folding `push` over a list of values: the shape of a sequence of
`pushBack` calls. -/
def pushAll (v : Vector T) (xs : List T) : Vector T :=
  xs.foldl push v

end Vector

namespace VectorIterator

variable {T : Type}

/-- vector.h lines 215-217, `hasNext()`: `return pos_ + 1 < size_;` -/
def hasNext (it : VectorIterator T) : Bool := it.pos_ + 1 < it.size_

/-- vector.h lines 219-223, `next()`: `CSOUP_ASSERT(hasNext())`, then `pos_++`. -/
def next (it : VectorIterator T) : Option (VectorIterator T) :=
  if it.hasNext then some { it with pos_ := it.pos_ + 1 } else none

/-- vector.h lines 225-227, `hasPrevious()`: `return pos_ > 0;` -/
def hasPrevious (it : VectorIterator T) : Bool := it.pos_ > 0

/-- vector.h lines 229-232, `previous()`: `CSOUP_ASSERT(hasPrevious())`, then
`pos_--`. -/
def previous (it : VectorIterator T) : Option (VectorIterator T) :=
  if it.hasPrevious then some { it with pos_ := it.pos_ - 1 } else none

/-- vector.h lines 234-242, `data()`: `CSOUP_ASSERT(pos_ < size_)`, then the
element at `base_ + pos_`. -/
def data (it : VectorIterator T) : Option T :=
  if it.pos_ < it.size_ then it.base_.get? it.pos_ else none

/-- vector.h lines 244-246, `valid()`: `return CSOUP_ASSERT(pos_ < size_);` —
the returned value is the result of the assertion call itself. -/
def valid (it : VectorIterator T) : Option Bool :=
  csoupAssert (decide (it.pos_ < it.size_))

end VectorIterator

/-! ### Basic lemmas: growth bookkeeping never touches the elements -/

namespace Vector

variable {T : Type}

lemma resize_data (v : Vector T) (c : Nat) : (v.resize c).data = v.data := rfl

lemma expand_data (v : Vector T) (c : Nat) : (v.expand c).data = v.data := rfl

lemma ensureExtraSize_data (v : Vector T) (c : Nat) :
    (v.ensureExtraSize c).data = v.data := by
  unfold ensureExtraSize
  split <;> rfl

lemma push_data (v : Vector T) (x : T) : (v.push x).data = v.data ++ [x] := by
  show (v.ensureExtraSize 1).data ++ [x] = v.data ++ [x]
  rw [ensureExtraSize_data]

lemma pushAll_data (xs : List T) (v : Vector T) :
    (v.pushAll xs).data = v.data ++ xs := by
  induction xs generalizing v with
  | nil => simp [pushAll]
  | cons x t ih =>
      show ((v.push x).pushAll t).data = v.data ++ (x :: t)
      rw [ih, push_data]
      simp

end Vector

/-! ### C1 -/

/-- C1: pushing x₁ … xₙ via `push` onto a newly constructed empty vector gives
`size() = n`, and `at(i)` yields xᵢ₊₁ for every i < n — insertion order is
preserved. -/
theorem C1_pushBack_preserves_order (c : Nat) (xs : List Nat) (v : CSoup.Vector Nat)
    (h : CSoup.Vector.mkChecked c false = some v) :
    (v.pushAll xs).size = xs.length ∧
    ∀ i, (hi : i < xs.length) → (v.pushAll xs).at' i = some (xs.get ⟨i, hi⟩) := by
  have hdata : (v.pushAll xs).data = xs := by
    unfold CSoup.Vector.mkChecked at h
    split at h
    · cases h
      rw [CSoup.Vector.pushAll_data]
      rfl
    · cases h
  constructor
  · rw [CSoup.Vector.size, hdata]
  · intro i hi
    rw [CSoup.Vector.at', CSoup.Vector.size, hdata]
    rw [if_pos hi]
    exact List.get?_eq_get hi

/-- C1 witness: the theorem applied to the concrete vector constructed with
capacity 1 and the pushed sequence [5, 7]. -/
theorem C1_witness :
    ((CSoup.Vector.mkRaw 1 : CSoup.Vector Nat).pushAll [5, 7]).at' 1 = some 7 :=
  (C1_pushBack_preserves_order 1 [5, 7] (CSoup.Vector.mkRaw 1) rfl).2 1 (by decide)

/-! ### C2 -/

namespace Vector

variable {T : Type}

lemma expand_cap (v : Vector T) (c : Nat) :
    (v.expand c).cap =
      max (if v.allocated then v.cap + (v.cap + 1) / 2 else v.initialCapacity_)
        (v.size + c) := by
  unfold expand resize
  dsimp only
  rcases Nat.lt_or_ge
      (if v.allocated then v.cap + (v.cap + 1) / 2 else v.initialCapacity_)
      (v.size + c) with h | h
  · rw [if_pos h, Nat.max_eq_right (Nat.le_of_lt h)]
  · rw [if_neg (Nat.not_lt.mpr h), Nat.max_eq_left h]

lemma ensureExtraSize_one_cap_full (v : Vector T) (h : v.cap = v.size) :
    (v.ensureExtraSize 1).cap =
      max (if v.allocated then v.cap + (v.cap + 1) / 2 else v.initialCapacity_)
        (v.size + 1) := by
  unfold ensureExtraSize
  rw [if_pos (by omega)]
  have harg : 1 + v.size - v.cap = 1 := by omega
  rw [harg, expand_cap]

end Vector

/-- C2: whenever a single-element mutation (`push`, and likewise `insert`) does
not fit — `capacity < size + 1` given the invariant `size ≤ capacity` — the new
capacity is `initialCapacity_` if the buffer was never allocated, and otherwise
`capacity + ceil(capacity / 2)`, raised to the requested minimum `size + 1` if
that minimum still exceeds it; and an array constructed with initial capacity 1
exhibits the capacity progression 1, 2, 3, 5, 8 over five pushes. -/
theorem C2_growth_policy :
    (∀ (v : CSoup.Vector Nat) (x : Nat), v.size ≤ v.cap → v.cap < v.size + 1 →
        (v.push x).cap =
          max (if v.allocated then v.cap + (v.cap + 1) / 2 else v.initialCapacity_)
            (v.size + 1)) ∧
    (∀ (v : CSoup.Vector Nat) (j x : Nat), v.size ≤ v.cap → v.cap < v.size + 1 →
        (v.insert j x).cap =
          max (if v.allocated then v.cap + (v.cap + 1) / 2 else v.initialCapacity_)
            (v.size + 1)) ∧
    [((CSoup.Vector.mkRaw 1 : CSoup.Vector Nat).pushAll [0]).cap,
     ((CSoup.Vector.mkRaw 1 : CSoup.Vector Nat).pushAll [0, 0]).cap,
     ((CSoup.Vector.mkRaw 1 : CSoup.Vector Nat).pushAll [0, 0, 0]).cap,
     ((CSoup.Vector.mkRaw 1 : CSoup.Vector Nat).pushAll [0, 0, 0, 0]).cap,
     ((CSoup.Vector.mkRaw 1 : CSoup.Vector Nat).pushAll [0, 0, 0, 0, 0]).cap] =
      [1, 2, 3, 5, 8] := by
  refine ⟨?_, ?_, by decide⟩
  · intro v x h1 h2
    show (v.ensureExtraSize 1).cap = _
    exact CSoup.Vector.ensureExtraSize_one_cap_full v (by omega)
  · intro v j x h1 h2
    show (v.ensureExtraSize 1).cap = _
    exact CSoup.Vector.ensureExtraSize_one_cap_full v (by omega)

/-- C2 witness: the growth formula applied to a concrete full vector of
size 1, capacity 1 (an allocated buffer): the push grows the capacity to
`max (1 + 1) 2 = 2`. -/
theorem C2_witness :
    ((⟨[9], 1, true, 1, 1⟩ : CSoup.Vector Nat).push 0).cap =
      max (if (true : Bool) then 1 + (1 + 1) / 2 else 1)
        ((⟨[9], 1, true, 1, 1⟩ : CSoup.Vector Nat).size + 1) :=
  C2_growth_policy.1 ⟨[9], 1, true, 1, 1⟩ 0 (by decide) (by decide)

/-! ### C3 -/

/-- C3 (refuting evaluation): `reserve` does not guarantee `capacity ≥ n`.
Construct with initial capacity 3, push one element (size 1, capacity 3), then
`reserve(10)`: the code ends with capacity 8 < 10, because `ensureExtraSize`
passes `count + size() - capacity()` (subtracting the free space) to `expand`,
while `expand` adds its argument to `size()` to obtain the requested minimum —
here `size + (10 - 3) = 8` instead of 10. Size and the stored sequence are
unchanged, as the claim states. -/
theorem C3_reserve_underprovision :
    (((CSoup.Vector.mkRaw 3 : CSoup.Vector Nat).push 7).reserve 10).cap = 8 ∧
    ¬ 10 ≤ (((CSoup.Vector.mkRaw 3 : CSoup.Vector Nat).push 7).reserve 10).cap ∧
    (((CSoup.Vector.mkRaw 3 : CSoup.Vector Nat).push 7).reserve 10).size = 1 ∧
    (((CSoup.Vector.mkRaw 3 : CSoup.Vector Nat).push 7).reserve 10).at' 0 = some 7 := by
  decide

/-! ### C4 -/

/-- C4 counterexample: construct with initial capacity 1 and push twice, giving
an allocated buffer of capacity 2 after 2 reallocations; `clear()` does reset
size to 0 and keep capacity 2, but pushing 2 elements — exactly up to the
retained capacity — performs a third reallocation, because the growth check
`stackTop_ + count >= stackEnd_` fires already when the push lands in the last
free slot. -/
theorem C4_counterexample :
    ((((CSoup.Vector.mkRaw 1 : CSoup.Vector Nat).push 10).push 11).clear).size = 0 ∧
    ((((CSoup.Vector.mkRaw 1 : CSoup.Vector Nat).push 10).push 11).clear).cap = 2 ∧
    ((((CSoup.Vector.mkRaw 1 : CSoup.Vector Nat).push 10).push 11).clear).reallocCount = 2 ∧
    ¬ ((((((CSoup.Vector.mkRaw 1 : CSoup.Vector Nat).push 10).push 11).clear).pushAll
        [20, 21]).reallocCount = 2) := by
  decide

namespace Vector

variable {T : Type}

lemma push_no_expand (v : Vector T) (x : T) (h : v.size + 1 < v.cap) :
    v.push x = { v with data := v.data ++ [x] } := by
  unfold push ensureExtraSize
  rw [if_neg (by omega)]

lemma pushAll_no_expand (xs : List T) (v : Vector T) (h : v.size + xs.length < v.cap) :
    v.pushAll xs = { v with data := v.data ++ xs } := by
  induction xs generalizing v with
  | nil => simp [pushAll]
  | cons x t ih =>
      simp only [size, List.length_cons] at h
      have hlt : v.size + 1 < v.cap := by
        simp only [size]
        omega
      show ((v.push x).pushAll t) = _
      rw [push_no_expand v x hlt]
      rw [ih _ (by simp only [size, List.length_append, List.length_cons,
        List.length_nil]; omega)]
      simp

end Vector

/-- C4 (amended): `clear()` resets `size()` to 0 while `capacity()` is
unchanged, and after `clear()` a sequence of `push` calls triggers no
reallocation as long as the number of pushed elements stays strictly below the
retained capacity; the push that makes the size reach the capacity already
reallocates, because the growth check uses `>=` rather than `>`. -/
theorem C4_clear_keeps_capacity (v : CSoup.Vector Nat) (xs : List Nat)
    (h : xs.length < v.cap) :
    (v.clear).size = 0 ∧ (v.clear).cap = v.cap ∧
    ((v.clear).pushAll xs).reallocCount = v.reallocCount ∧
    ((v.clear).pushAll xs).cap = v.cap := by
  have hall : (v.clear).pushAll xs = { v.clear with data := [] ++ xs } := by
    exact CSoup.Vector.pushAll_no_expand xs v.clear (by
      simp only [CSoup.Vector.clear, CSoup.Vector.size, List.length_nil]
      omega)
  refine ⟨rfl, rfl, ?_, ?_⟩ <;> rw [hall] <;> rfl

/-- C4 witness: the amended theorem applied to a cleared vector of capacity 3
receiving 2 pushes — no reallocation occurs. -/
theorem C4_witness :
    (((⟨[7], 3, true, 1, 4⟩ : CSoup.Vector Nat).clear).pushAll [1, 2]).reallocCount =
      (⟨[7], 3, true, 1, 4⟩ : CSoup.Vector Nat).reallocCount :=
  (C4_clear_keeps_capacity ⟨[7], 3, true, 1, 4⟩ [1, 2] (by decide)).2.2.1

/-! ### C5 -/

/-- C5 counterexample: on an empty vector, `insert(1, 5)` clamps the index to 0
and succeeds (the array becomes [5]), but the immediately following
`remove(1)` fails its precondition `index < size()` (1 < 1 is false) and halts,
so the round trip does not leave the sequence unchanged for out-of-range
indices. -/
theorem C5_counterexample :
    ((CSoup.Vector.mkRaw 1 : CSoup.Vector Nat).insert 1 5).remove 1 true = none := by
  decide

namespace Vector

variable {T : Type}

lemma take_insert_drop_eq (i : Nat) (x : T) (d : List T) (h : i ≤ d.length) :
    (d.take i ++ x :: d.drop i).take i ++ (d.take i ++ x :: d.drop i).drop (i + 1)
      = d := by
  have hlen : (d.take i).length = i := by
    rw [List.length_take]
    omega
  have htake : (d.take i ++ x :: d.drop i).take i = d.take i :=
    List.take_left' hlen
  have hlen' : (d.take i ++ [x]).length = i + 1 := by
    rw [List.length_append, hlen]
    rfl
  have hdrop : (d.take i ++ x :: d.drop i).drop (i + 1) = d.drop i := by
    have : d.take i ++ x :: d.drop i = (d.take i ++ [x]) ++ d.drop i := by
      simp
    rw [this, List.drop_left' hlen']
  rw [htake, hdrop, List.take_append_drop]

end Vector

/-- C5 (amended): for every index i ≤ size(), `insert(i, v)` immediately
followed by `remove(i)` succeeds and leaves the observable element sequence —
`size()` and the value `at(j)` for every index j — unchanged. -/
theorem C5_insert_remove_roundtrip (v : CSoup.Vector Nat) (i x j : Nat)
    (h : i ≤ v.size) :
    (((v.insert i x).remove i true).map fun p => p.1.data) = some v.data ∧
    (((v.insert i x).remove i true).map fun p => p.1.size) = some v.size ∧
    (((v.insert i x).remove i true).map fun p => p.1.at' j) = some (v.at' j) := by
  have hidx : (if i > v.size then v.size else i) = i := by
    rw [if_neg (by omega)]
  have hins : (v.insert i x).data = v.data.take i ++ x :: v.data.drop i := by
    show ((v.ensureExtraSize 1).data.take _ ++ x :: (v.ensureExtraSize 1).data.drop _)
        = _
    rw [CSoup.Vector.ensureExtraSize_data, hidx]
  have hsize : (v.insert i x).size = v.size + 1 := by
    simp only [CSoup.Vector.size] at h ⊢
    rw [hins]
    simp only [List.length_append, List.length_cons, List.length_take,
      List.length_drop]
    omega
  have hlt : i < (v.insert i x).size := by omega
  have hdata : (((v.insert i x).remove i true).map fun p => p.1.data) = some v.data := by
    unfold CSoup.Vector.remove
    rw [if_pos hlt, Option.map_some']
    rw [hins]
    rw [CSoup.Vector.take_insert_drop_eq i x v.data h]
  rcases Option.map_eq_some'.mp hdata with ⟨p, hp, hpd⟩
  refine ⟨hdata, ?_, ?_⟩
  · rw [hp, Option.map_some', CSoup.Vector.size, CSoup.Vector.size, hpd]
  · rw [hp, Option.map_some']
    unfold CSoup.Vector.at'
    rw [CSoup.Vector.size, CSoup.Vector.size, hpd]

/-- C5 witness: the amended round-trip law applied to the vector holding
[1, 2] at index 1 with value 9, observed at index 1. -/
theorem C5_witness :
    ((((⟨[1, 2], 2, true, 1, 1⟩ : CSoup.Vector Nat).insert 1 9).remove 1 true).map
      fun p => p.1.at' 1) = some ((⟨[1, 2], 2, true, 1, 1⟩ : CSoup.Vector Nat).at' 1) :=
  (C5_insert_remove_roundtrip ⟨[1, 2], 2, true, 1, 1⟩ 1 9 1 (by decide)).2.2

/-! ### C6 -/

/-- C6: on a non-empty vector, `shrinkToFit()` yields `capacity() = size()`
(keeping the elements); on an empty vector it yields capacity 0 with the
buffer fully released (the null pointers are modelled by `allocated = false`
together with size and capacity 0). -/
theorem C6_shrinkToFit_policy (v : CSoup.Vector Nat) :
    (v.empty = false →
      (v.shrinkToFit).cap = v.size ∧ (v.shrinkToFit).data = v.data) ∧
    (v.empty = true →
      (v.shrinkToFit).cap = 0 ∧ (v.shrinkToFit).allocated = false ∧
      (v.shrinkToFit).size = 0) := by
  constructor
  · intro h
    unfold CSoup.Vector.shrinkToFit
    rw [if_neg (by simp [h])]
    exact ⟨rfl, rfl⟩
  · intro h
    unfold CSoup.Vector.shrinkToFit
    rw [if_pos h]
    exact ⟨rfl, rfl, rfl⟩

/-- C6 witness: the theorem applied to a non-empty vector of size 1 and
capacity 3, which shrinks to capacity 1. -/
theorem C6_witness :
    ((⟨[4], 3, true, 1, 0⟩ : CSoup.Vector Nat).shrinkToFit).cap =
      (⟨[4], 3, true, 1, 0⟩ : CSoup.Vector Nat).size ∧
    ((⟨[4], 3, true, 1, 0⟩ : CSoup.Vector Nat).shrinkToFit).data =
      (⟨[4], 3, true, 1, 0⟩ : CSoup.Vector Nat).data :=
  (C6_shrinkToFit_policy ⟨[4], 3, true, 1, 0⟩).1 rfl

/-! ### C7 -/

/-- C7 (refutation of the reachability part): every permitted `next()` — one
whose precondition `hasNext()` holds, i.e. `pos_ + 1 < size_` — leaves the
position strictly below the size snapshot, so a permitted advance can never
land exactly on the past-last position `pos_ = size_`, contrary to the claim
(and to the source's own comment "You can move to end"). -/
theorem C7_advance_stays_below_snapshot (it it' : CSoup.VectorIterator Nat)
    (h : it.next = some it') : it'.pos_ < it'.size_ := by
  unfold CSoup.VectorIterator.next at h
  split at h
  · next hcond =>
      cases h
      simpa [CSoup.VectorIterator.hasNext] using hcond
  · cases h

/-- C7 witness: the theorem applied to the cursor at position 0 over a
two-element snapshot, whose permitted advance lands at position 1 < 2. -/
theorem C7_witness :
    (⟨1, 2, [1, 2]⟩ : CSoup.VectorIterator Nat).pos_ <
      (⟨1, 2, [1, 2]⟩ : CSoup.VectorIterator Nat).size_ :=
  C7_advance_stays_below_snapshot ⟨0, 2, [1, 2]⟩ ⟨1, 2, [1, 2]⟩ rfl

/-! ### C8 -/

/-- C8: `pop`, `front`, `back` and `at` halt via their fatal precondition
checks on an empty vector or an out-of-range index (modelled by `none`), and
the constructor halts on a null allocator or a zero initial capacity; under
the stated preconditions every check passes and the operation completes
(`isSome`). -/
theorem C8_fatal_precondition_checks (v : CSoup.Vector Nat) (i c : Nat) :
    (v.empty = true → v.pop = none ∧ v.front = none ∧ v.back = none) ∧
    (v.empty = false →
      (v.pop).isSome = true ∧ (v.front).isSome = true ∧ (v.back).isSome = true) ∧
    (v.size ≤ i → v.at' i = none) ∧
    (i < v.size → (v.at' i).isSome = true) ∧
    (CSoup.Vector.mkChecked c true = (none : Option (CSoup.Vector Nat))) ∧
    (CSoup.Vector.mkChecked 0 false = (none : Option (CSoup.Vector Nat))) ∧
    (0 < c →
      (CSoup.Vector.mkChecked c false : Option (CSoup.Vector Nat)).isSome = true) := by
  refine ⟨?_, ?_, ?_, ?_, ?_, ?_, ?_⟩
  · intro h
    refine ⟨?_, ?_, ?_⟩
    · unfold CSoup.Vector.pop
      rw [if_pos h]
    · unfold CSoup.Vector.front
      rw [if_pos h]
    · unfold CSoup.Vector.back
      rw [if_pos h]
  · intro h
    have hne : v.data ≠ [] := by
      intro hd
      rw [CSoup.Vector.empty, CSoup.Vector.size, hd] at h
      simp at h
    refine ⟨?_, ?_, ?_⟩
    · unfold CSoup.Vector.pop
      rw [if_neg (by simp [h])]
      rfl
    · unfold CSoup.Vector.front
      rw [if_neg (by simp [h])]
      cases hd : v.data with
      | nil => exact absurd hd hne
      | cons a t => rfl
    · unfold CSoup.Vector.back
      rw [if_neg (by simp [h])]
      rw [List.getLast?_isSome]
      exact hne
  · intro h
    unfold CSoup.Vector.at'
    rw [if_neg (by omega)]
  · intro h
    unfold CSoup.Vector.at'
    rw [if_pos h]
    rw [List.get?_eq_get h]
    rfl
  · unfold CSoup.Vector.mkChecked
    rw [if_neg (by simp)]
  · unfold CSoup.Vector.mkChecked
    rw [if_neg (by simp)]
  · intro h
    unfold CSoup.Vector.mkChecked
    rw [if_pos ⟨h, rfl⟩]
    rfl

/-- C8 witness: the theorem applied to the freshly constructed empty vector —
`pop`, `front` and `back` all halt on it. -/
theorem C8_witness :
    (CSoup.Vector.mkRaw 1 : CSoup.Vector Nat).pop = none ∧
    (CSoup.Vector.mkRaw 1 : CSoup.Vector Nat).front = none ∧
    (CSoup.Vector.mkRaw 1 : CSoup.Vector Nat).back = none :=
  (C8_fatal_precondition_checks (CSoup.Vector.mkRaw 1) 0 1).1 rfl

/-! ### C9 -/

/-- C9 (refuting evaluation): `valid()` does not return the boundary comparison
as a plain boolean. On the past-last cursor of the empty vector (position 0,
size snapshot 0) the comparison `pos_ < size_` is false, so the claim requires
the return value `false`; the code instead returns `CSOUP_ASSERT(pos_ < size_)`,
whose failing fatal check halts execution (modelled as `none`, not
`some false`). -/
theorem C9_valid_is_an_assert_not_a_boolean :
    CSoup.VectorIterator.valid ((CSoup.Vector.mkRaw 1 : CSoup.Vector Nat).endIter) =
      none ∧
    CSoup.VectorIterator.valid ((CSoup.Vector.mkRaw 1 : CSoup.Vector Nat).endIter) ≠
      some false := by
  decide

/-! ### C10 -/

/-- C10: the `del` parameter of the index-based `remove(index, del)` is never
read: both `del = true` and `del = false` produce the same resulting state,
and in both cases the destructor of the removed element (and only it) is
invoked — the destroyed-elements record is the nonempty list holding exactly
the element at `index`. -/
theorem C10_remove_del_has_no_effect (v : CSoup.Vector Nat) (i : Nat)
    (hi : i < v.size) :
    v.remove i true = v.remove i false ∧
    (v.remove i true).map Prod.snd = some (v.data.get? i).toList ∧
    (v.data.get? i).toList ≠ [] := by
  refine ⟨rfl, ?_, ?_⟩
  · unfold CSoup.Vector.remove
    rw [if_pos hi]
    rfl
  · rw [List.get?_eq_get hi]
    simp

/-- C10 witness: the theorem applied to the two-element vector [3, 4] at
index 0. -/
theorem C10_witness :
    (⟨[3, 4], 2, true, 1, 0⟩ : CSoup.Vector Nat).remove 0 true =
      (⟨[3, 4], 2, true, 1, 0⟩ : CSoup.Vector Nat).remove 0 false :=
  (C10_remove_del_has_no_effect ⟨[3, 4], 2, true, 1, 0⟩ 0 (by decide)).1

end CSoup
